import Mathlib

/-!
Verification of the civil-date library (day-count / radix-36 / ISO calendar
conversions).  The JavaScript source is embedded shallowly:

* JS `number` values are modelled as exact rationals (`ℚ`); float rounding and
  the 8.64e15 time-value clip are abstracted away.
* `Date` platform semantics follow the ECMAScript specification: `MakeDay` /
  `DayFromYear` for field → day-count conversion (proleptic Gregorian,
  including the "years 0–99 mean 1900+y" quirk of `new Date(y, m, d)` and
  `Date.UTC`), and `YearFromTime` (the unique year `y` with
  `DayFromYear y ≤ day < DayFromYear (y+1)`) implemented by a bounded search
  that is proved to satisfy that characterisation.
* Local-time field access is modelled by an ambient offset function
  `off : Int → Int` (milliseconds of local offset as a function of the time
  value, which covers DST), as in ECMAScript `LocalTime(t) = t + offset(t)`.
* Constructing a `Date` from local fields and immediately reading its local
  fields back is modelled as pure calendar normalisation.
-/

set_option maxRecDepth 8192

deriving instance DecidableEq for Except

/-! ### Core day / calendar arithmetic (ECMAScript Date semantics) -/

def msPerDay : Int := 86400000

def minDays : Int := 1296

def maxDays : Int := 46655

/-- 1 when `y` is a Gregorian leap year, else 0 (ECMAScript `DaysInYear`). -/
def leapDays (y : Int) : Int :=
  if (y % 4 = 0 ∧ y % 100 ≠ 0) ∨ y % 400 = 0 then 1 else 0

/-- ECMAScript `DayFromYear`: day number of 1 January of year `y`. -/
def dayFromYear (y : Int) : Int :=
  365 * (y - 1970) + (y - 1969) / 4 - (y - 1901) / 100 + (y - 1601) / 400

/-- Day-within-year of the first day of month `m` (1-based), `l` = leap days. -/
def monthStartC (l : Int) (m : Int) : Int :=
  if m = 1 then 0 else if m = 2 then 31 else if m = 3 then 59 + l
  else if m = 4 then 90 + l else if m = 5 then 120 + l else if m = 6 then 151 + l
  else if m = 7 then 181 + l else if m = 8 then 212 + l else if m = 9 then 243 + l
  else if m = 10 then 273 + l else if m = 11 then 304 + l else if m = 12 then 334 + l
  else 0

/-- Number of days in month `m` (1-based), `l` = leap days. -/
def monthLen (l : Int) (m : Int) : Int :=
  if m = 1 then 31 else if m = 2 then 28 + l else if m = 3 then 31
  else if m = 4 then 30 else if m = 5 then 31 else if m = 6 then 30
  else if m = 7 then 31 else if m = 8 then 31 else if m = 9 then 30
  else if m = 10 then 31 else if m = 11 then 30 else if m = 12 then 31
  else 0

/-- ECMAScript `MonthFromTime`: month (1-based) of a day-within-year. -/
def monthFromDwy (l dwy : Int) : Int :=
  if dwy < 31 then 1
  else if dwy < 59 + l then 2
  else if dwy < 90 + l then 3
  else if dwy < 120 + l then 4
  else if dwy < 151 + l then 5
  else if dwy < 181 + l then 6
  else if dwy < 212 + l then 7
  else if dwy < 243 + l then 8
  else if dwy < 273 + l then 9
  else if dwy < 304 + l then 10
  else if dwy < 334 + l then 11
  else 12

/-- Bounded search for ECMAScript `YearFromTime`: starting from a year `y`
with `dayFromYear y ≤ z`, advance while the next year still starts at or
before `z`. -/
def yearSearch : Nat → Int → Int → Int
  | 0, y, _ => y
  | Nat.succ fuel, y, z => if dayFromYear (y + 1) ≤ z then yearSearch fuel (y + 1) z else y

/-- ECMAScript `YearFromTime` on a day number: the year containing day `z`. -/
def yearFromDay (z : Int) : Int :=
  yearSearch 400 (1600 + 400 * ((z + 135140) / 146097)) z

/-- Calendar fields (year, month 1-based, day-of-month) of day number `z`,
per ECMAScript `YearFromTime` / `MonthFromTime` / `DateFromTime`. -/
def civilFromDays (z : Int) : Int × Int × Int :=
  let y := yearFromDay z
  let l := leapDays y
  let dwy := z - dayFromYear y
  let m := monthFromDwy l dwy
  (y, m, dwy - monthStartC l m + 1)

/-- ECMAScript `MakeDay` (month `m0` is 0-based and is normalised). -/
def makeDay (y m0 d : Int) : Int :=
  let ym := y + m0 / 12
  let mn := m0 % 12
  dayFromYear ym + monthStartC (leapDays ym) (mn + 1) + (d - 1)

/-- The two-digit-year quirk of `new Date(y, m, d)` and `Date.UTC`:
years 0–99 are interpreted as 1900–1999. -/
def adjustYear (y : Int) : Int := if 0 ≤ y ∧ y ≤ 99 then y + 1900 else y

/-- `Date.UTC(y, m0, d)` (time value in milliseconds, `m0` 0-based). -/
def dateUTC (y m0 d : Int) : Int := makeDay (adjustYear y) m0 d * msPerDay

/-- `Math.floor(Date.UTC(y, m0, d) / MS_PER_DAY)` — the body of `fromDate`
once the local fields have been read. -/
def fromDateFields (y m0 d : Int) : Int := dateUTC y m0 d / msPerDay

/-- Local calendar fields (`getFullYear`, `getMonth`+1, `getDate`) of the
moment with time value `tv` under the ambient offset function `off`. -/
def localYmd (off : Int → Int) (tv : Int) : Int × Int × Int :=
  civilFromDays ((tv + off tv) / msPerDay)

/-- `fromDate`: read the local wall-clock fields, rebuild a UTC timestamp at
midnight of those fields, floor-divide by milliseconds per day. -/
def fromDate (off : Int → Int) (tv : Int) : Int :=
  let f := localYmd off tv
  fromDateFields f.1 (f.2.1 - 1) f.2.2

/-- Days in a month of a given year (leap-year aware). -/
def daysInMonth (y m : Int) : Int := monthLen (leapDays y) m

/-- `(y, m, d)` names a real proleptic-Gregorian calendar date. -/
def isRealDate (y m d : Int) : Prop :=
  1 ≤ m ∧ m ≤ 12 ∧ 1 ≤ d ∧ d ≤ daysInMonth y m

instance (y m d : Int) : Decidable (isRealDate y m d) := by
  unfold isRealDate; infer_instance

/-! ### Arithmetic facts about the calendar model -/

theorem leapDays_bounds (y : Int) : 0 ≤ leapDays y ∧ leapDays y ≤ 1 := by
  unfold leapDays; split_ifs <;> omega

theorem dayFromYear_succ (y : Int) :
    dayFromYear (y + 1) = dayFromYear y + 365 + leapDays y := by
  unfold dayFromYear leapDays
  have h1 : y + 1 - 1970 = y - 1969 := by ring
  have h2 : y + 1 - 1969 = y - 1968 := by ring
  have h3 : y + 1 - 1901 = y - 1900 := by ring
  have h4 : y + 1 - 1601 = y - 1600 := by ring
  rw [h1, h2, h3, h4]
  split_ifs with h <;> omega

theorem dayFromYear_anchor (e : Int) :
    dayFromYear (1600 + 400 * e) = 146097 * e - 135140 := by
  unfold dayFromYear
  have h1 : 1600 + 400 * e - 1970 = 400 * e - 370 := by ring
  have h2 : 1600 + 400 * e - 1969 = 400 * e - 369 := by ring
  have h3 : 1600 + 400 * e - 1901 = 400 * e - 301 := by ring
  have h4 : 1600 + 400 * e - 1601 = 400 * e - 1 := by ring
  rw [h1, h2, h3, h4]
  omega

theorem dayFromYear_add_nat (y : Int) (n : Nat) :
    dayFromYear y + 365 * n ≤ dayFromYear (y + n) := by
  induction n with
  | zero => simp
  | succ k ih =>
    have hs := dayFromYear_succ (y + k)
    have hl := leapDays_bounds (y + k)
    have harg : y + (k + 1 : Nat) = y + k + 1 := by push_cast; ring
    rw [harg, hs]
    push_cast
    omega

theorem dayFromYear_mono {a b : Int} (h : a ≤ b) : dayFromYear a ≤ dayFromYear b := by
  have hb : b = a + ((b - a).toNat : Int) := by omega
  rw [hb]
  have := dayFromYear_add_nat a (b - a).toNat
  omega

theorem dayFromYear_strict {a b : Int} (h : a < b) :
    dayFromYear a + 365 ≤ dayFromYear b := by
  have h1 := dayFromYear_succ a
  have h2 := dayFromYear_mono (show a + 1 ≤ b by omega)
  have hl := leapDays_bounds a
  omega

theorem yearSearch_bracket (fuel : Nat) :
    ∀ y z : Int, dayFromYear y ≤ z → z < dayFromYear (y + fuel + 1) →
      dayFromYear (yearSearch fuel y z) ≤ z ∧ z < dayFromYear (yearSearch fuel y z + 1) := by
  induction fuel with
  | zero =>
    intro y z h1 h2
    simp only [yearSearch]
    constructor
    · exact h1
    · simpa using h2
  | succ k ih =>
    intro y z h1 h2
    simp only [yearSearch]
    split_ifs with h
    · apply ih (y + 1) z h
      have harg : y + 1 + (k : Int) + 1 = y + ((k + 1 : Nat) : Int) + 1 := by push_cast; ring
      rw [harg]
      exact h2
    · exact ⟨h1, by omega⟩

theorem yearFromDay_bracket (z : Int) :
    dayFromYear (yearFromDay z) ≤ z ∧ z < dayFromYear (yearFromDay z + 1) := by
  unfold yearFromDay
  have ha := dayFromYear_anchor ((z + 135140) / 146097)
  have ha2 := dayFromYear_anchor ((z + 135140) / 146097 + 1)
  have harg : 1600 + 400 * ((z + 135140) / 146097 + 1)
      = 1600 + 400 * ((z + 135140) / 146097) + 400 := by ring
  rw [harg] at ha2
  have hlow : dayFromYear (1600 + 400 * ((z + 135140) / 146097)) ≤ z := by omega
  have hhigh : z < dayFromYear (1600 + 400 * ((z + 135140) / 146097) + 400) := by omega
  have hhigh2 : z < dayFromYear (1600 + 400 * ((z + 135140) / 146097) + (400 : Nat) + 1) := by
    have := dayFromYear_mono
      (show (1600 + 400 * ((z + 135140) / 146097) + 400 : Int)
          ≤ 1600 + 400 * ((z + 135140) / 146097) + (400 : Nat) + 1 by push_cast; omega)
    omega
  exact yearSearch_bracket 400 _ z hlow hhigh2

theorem yearFromDay_eq {z y : Int}
    (h1 : dayFromYear y ≤ z) (h2 : z < dayFromYear (y + 1)) : yearFromDay z = y := by
  obtain ⟨b1, b2⟩ := yearFromDay_bracket z
  by_contra hne
  rcases lt_or_gt_of_ne hne with hlt | hgt
  · have : dayFromYear (yearFromDay z + 1) ≤ dayFromYear y :=
      dayFromYear_mono (by omega)
    omega
  · have : dayFromYear (y + 1) ≤ dayFromYear (yearFromDay z) :=
      dayFromYear_mono (by omega)
    omega

theorem monthStartC_succ (l m : Int) (h1 : 1 ≤ m) (h2 : m ≤ 11) :
    monthStartC l (m + 1) = monthStartC l m + monthLen l m := by
  interval_cases m <;> norm_num [monthStartC, monthLen] <;> ring

theorem monthLen_ge (l m : Int) (hl : 0 ≤ l) (h1 : 1 ≤ m) (h2 : m ≤ 12) :
    28 ≤ monthLen l m := by
  interval_cases m <;> norm_num [monthLen] <;> omega

theorem monthFromDwy_eq (l m dwy : Int) (hm1 : 1 ≤ m) (hm2 : m ≤ 12)
    (hl : 0 ≤ l)
    (h1 : monthStartC l m ≤ dwy) (h2 : dwy < monthStartC l m + monthLen l m) :
    monthFromDwy l dwy = m := by
  interval_cases m
  · rw [show monthStartC l 1 = 0 from rfl] at h1 h2
    rw [show monthLen l 1 = 31 from rfl] at h2
    unfold monthFromDwy
    rw [if_pos (by omega)]
  · rw [show monthStartC l 2 = 31 from rfl] at h1 h2
    rw [show monthLen l 2 = 28 + l from rfl] at h2
    unfold monthFromDwy
    iterate 1 rw [if_neg (by omega)]
    rw [if_pos (by omega)]
  · rw [show monthStartC l 3 = 59 + l from rfl] at h1 h2
    rw [show monthLen l 3 = 31 from rfl] at h2
    unfold monthFromDwy
    iterate 2 rw [if_neg (by omega)]
    rw [if_pos (by omega)]
  · rw [show monthStartC l 4 = 90 + l from rfl] at h1 h2
    rw [show monthLen l 4 = 30 from rfl] at h2
    unfold monthFromDwy
    iterate 3 rw [if_neg (by omega)]
    rw [if_pos (by omega)]
  · rw [show monthStartC l 5 = 120 + l from rfl] at h1 h2
    rw [show monthLen l 5 = 31 from rfl] at h2
    unfold monthFromDwy
    iterate 4 rw [if_neg (by omega)]
    rw [if_pos (by omega)]
  · rw [show monthStartC l 6 = 151 + l from rfl] at h1 h2
    rw [show monthLen l 6 = 30 from rfl] at h2
    unfold monthFromDwy
    iterate 5 rw [if_neg (by omega)]
    rw [if_pos (by omega)]
  · rw [show monthStartC l 7 = 181 + l from rfl] at h1 h2
    rw [show monthLen l 7 = 31 from rfl] at h2
    unfold monthFromDwy
    iterate 6 rw [if_neg (by omega)]
    rw [if_pos (by omega)]
  · rw [show monthStartC l 8 = 212 + l from rfl] at h1 h2
    rw [show monthLen l 8 = 31 from rfl] at h2
    unfold monthFromDwy
    iterate 7 rw [if_neg (by omega)]
    rw [if_pos (by omega)]
  · rw [show monthStartC l 9 = 243 + l from rfl] at h1 h2
    rw [show monthLen l 9 = 30 from rfl] at h2
    unfold monthFromDwy
    iterate 8 rw [if_neg (by omega)]
    rw [if_pos (by omega)]
  · rw [show monthStartC l 10 = 273 + l from rfl] at h1 h2
    rw [show monthLen l 10 = 31 from rfl] at h2
    unfold monthFromDwy
    iterate 9 rw [if_neg (by omega)]
    rw [if_pos (by omega)]
  · rw [show monthStartC l 11 = 304 + l from rfl] at h1 h2
    rw [show monthLen l 11 = 30 from rfl] at h2
    unfold monthFromDwy
    iterate 10 rw [if_neg (by omega)]
    rw [if_pos (by omega)]
  · rw [show monthStartC l 12 = 334 + l from rfl] at h1 h2
    rw [show monthLen l 12 = 31 from rfl] at h2
    unfold monthFromDwy
    iterate 11 rw [if_neg (by omega)]

theorem makeDay_eq (y m d : Int) (hm1 : 1 ≤ m) (hm2 : m ≤ 12) :
    makeDay y (m - 1) d = dayFromYear y + monthStartC (leapDays y) m + (d - 1) := by
  have hdiv : (m - 1) / 12 = 0 := by omega
  have hmod : (m - 1) % 12 = m - 1 := by omega
  simp only [makeDay, hdiv, hmod]
  have h0 : y + 0 = y := by ring
  have h1 : m - 1 + 1 = m := by ring
  rw [h0, h1]

theorem monthStartC_bounds (l m d : Int) (hl0 : 0 ≤ l) (hl1 : l ≤ 1)
    (hm1 : 1 ≤ m) (hm2 : m ≤ 12) (hd1 : 1 ≤ d) (hd2 : d ≤ monthLen l m) :
    0 ≤ monthStartC l m + (d - 1) ∧ monthStartC l m + (d - 1) ≤ 364 + l := by
  interval_cases m <;> simp [monthStartC, monthLen] at hd2 ⊢ <;> omega

/-- Normalisation round-trip: a valid calendar date comes back unchanged from
`MakeDay` followed by field extraction. -/
theorem civil_makeDay (y m d : Int) (hm1 : 1 ≤ m) (hm2 : m ≤ 12)
    (hd1 : 1 ≤ d) (hd2 : d ≤ daysInMonth y m) :
    civilFromDays (makeDay y (m - 1) d) = (y, m, d) := by
  have hl := leapDays_bounds y
  have hmk := makeDay_eq y m d hm1 hm2
  unfold daysInMonth at hd2
  have hoff := monthStartC_bounds (leapDays y) m d hl.1 hl.2 hm1 hm2 hd1 hd2
  have hy : yearFromDay (makeDay y (m - 1) d) = y := by
    apply yearFromDay_eq
    · rw [hmk]; omega
    · rw [hmk, dayFromYear_succ]; omega
  simp only [civilFromDays]
  rw [hy]
  have hdwy : makeDay y (m - 1) d - dayFromYear y = monthStartC (leapDays y) m + (d - 1) := by
    rw [hmk]; ring
  rw [hdwy]
  have hmth : monthFromDwy (leapDays y) (monthStartC (leapDays y) m + (d - 1)) = m := by
    apply monthFromDwy_eq (leapDays y) m _ hm1 hm2 hl.1 (by omega) (by omega)
  rw [hmth]
  have hday : monthStartC (leapDays y) m + (d - 1) - monthStartC (leapDays y) m + 1 = d := by
    ring
  rw [hday]

/-- Day-of-month overflow: `MakeDay` rolls an overflowing day forward into the
next month (or January of the next year). -/
theorem civil_makeDay_roll (y m d : Int) (hm1 : 1 ≤ m) (hm2 : m ≤ 12)
    (hd1 : daysInMonth y m < d) (hd2 : d ≤ 31) :
    civilFromDays (makeDay y (m - 1) d) =
      (if m = 12 then y + 1 else y, if m = 12 then 1 else m + 1, d - daysInMonth y m) := by
  have hl := leapDays_bounds y
  have h28 : 28 ≤ daysInMonth y m := monthLen_ge (leapDays y) m hl.1 hm1 hm2
  have key : makeDay y (m - 1) d
      = makeDay (if m = 12 then y + 1 else y) ((if m = 12 then 1 else m + 1) - 1)
          (d - daysInMonth y m) := by
    split_ifs with h12
    · subst h12
      have hcon : daysInMonth y 12 = 31 := by simp [daysInMonth, monthLen]
      omega
    · rw [makeDay_eq y m d hm1 hm2,
          makeDay_eq y (m + 1) (d - daysInMonth y m) (by omega) (by omega),
          monthStartC_succ (leapDays y) m hm1 (by omega)]
      unfold daysInMonth
      ring
  rw [key]
  split_ifs with h12
  · subst h12
    have hcon : daysInMonth y 12 = 31 := by simp [daysInMonth, monthLen]
    omega
  · apply civil_makeDay y (m + 1) (d - daysInMonth y m) (by omega) (by omega) (by omega)
    have := monthLen_ge (leapDays y) (m + 1) hl.1 (by omega) (by omega)
    unfold daysInMonth at *
    omega

/-! ### Radix-36 codec (`encode` / `decode`) -/

/-- Base-36 digit value of a character (`0-9`, `A-Z`, `a-z`), as used by
`parseInt(code, 36)`. -/
def digitVal36 (c : Char) : Option Nat :=
  if 48 ≤ c.toNat ∧ c.toNat ≤ 57 then some (c.toNat - 48)
  else if 65 ≤ c.toNat ∧ c.toNat ≤ 90 then some (c.toNat - 55)
  else if 97 ≤ c.toNat ∧ c.toNat ≤ 122 then some (c.toNat - 87)
  else none

/-- `CODE_REGEX.test`: exactly 3 characters, each alphanumeric. -/
def codeMatches (s : String) : Bool :=
  s.data.length == 3 && s.data.all fun c => (digitVal36 c).isSome

/-- `parseInt(cs, 36)`: value of the maximal leading run of base-36 digits,
`none` (NaN) when the string starts with no digit. -/
def jsParseInt36 (cs : List Char) : Option Int :=
  let ds := cs.takeWhile fun c => (digitVal36 c).isSome
  if ds.isEmpty then none
  else some (ds.foldl (fun a c => a * 36 + (((digitVal36 c).getD 0 : Nat) : Int)) 0)

/-- `decode`: reject anything failing the 3-character alphanumeric shape test,
then parse as base 36 (the `isNaN` re-check of the source is kept). -/
def decode (s : String) : Except String Int :=
  if codeMatches s then
    match jsParseInt36 s.data with
    | some v => .ok v
    | none => .error "Invalid civil-date code"
  else .error "Invalid civil-date code"

/-- Base-36 digit list of a natural number, most significant first. -/
def digits36 (n : Nat) : List Nat :=
  if h : n < 36 then [n]
  else digits36 (n / 36) ++ [n % 36]
  termination_by n
  decreasing_by exact Nat.div_lt_self (by omega) (by omega)

/-- Digit character used by `Number.prototype.toString(36)` (lowercase). -/
def digitChar36Lower (v : Nat) : Char :=
  if v < 10 then Char.ofNat (48 + v) else Char.ofNat (87 + v)

/-- `n.toString(36)` for an integer. -/
def toString36 (n : Int) : String :=
  if n < 0 then ⟨'-' :: (digits36 (-n).toNat).map digitChar36Lower⟩
  else ⟨(digits36 n.toNat).map digitChar36Lower⟩

/-- `String.prototype.toUpperCase` on one character (ASCII range). -/
def jsUpperChar (c : Char) : Char :=
  if 97 ≤ c.toNat ∧ c.toNat ≤ 122 then Char.ofNat (c.toNat - 32) else c

/-- `String.prototype.toUpperCase`. -/
def jsUpper (s : String) : String := ⟨s.data.map jsUpperChar⟩

/-- `String.prototype.padStart(3, '0')`. -/
def padStart3Zero (s : String) : String :=
  ⟨List.replicate (3 - s.data.length) '0' ++ s.data⟩

/-- `Math.floor(days).toString(36).toUpperCase().padStart(3, '0')`. -/
def codeOfDays (n : Int) : String := padStart3Zero (jsUpper (toString36 n))

/-- `encode`: range-check the raw numeric argument, then render the floor. -/
def encode (q : ℚ) : Except String String :=
  if q < 1296 ∨ q > 46655 then .error "Days out of range"
  else .ok (codeOfDays (Rat.floor q))

/-! ### JS `Date` values and the ISO formatter -/

/-- Truncation toward zero (ECMAScript `ToIntegerOrInfinity` on a finite
number), applied by `new Date(ms)` to its millisecond argument. -/
def ratTrunc (q : ℚ) : Int := if 0 ≤ q then Rat.floor q else -Rat.floor (-q)

/-- A JS `Date`: its time value in milliseconds since the epoch. -/
structure JSDate where
  tv : Int
deriving DecidableEq

/-- `new Date(ms)`. -/
def jsNewDate (ms : ℚ) : JSDate := ⟨ratTrunc ms⟩

/-- ECMAScript `Day(t)`. -/
def dayOfTv (t : Int) : Int := t / msPerDay

/-- UTC calendar fields (year, month 1-based, day-of-month) of a `Date`. -/
def getUTCymd (dt : JSDate) : Int × Int × Int := civilFromDays (dayOfTv dt.tv)

def getUTCFullYear (dt : JSDate) : Int := (getUTCymd dt).1

/-- `getUTCMonth` (0-based, January = 0). -/
def getUTCMonth (dt : JSDate) : Int := (getUTCymd dt).2.1 - 1

def getUTCDate (dt : JSDate) : Int := (getUTCymd dt).2.2

/-- ECMAScript `HourFromTime`. -/
def getUTCHours (dt : JSDate) : Int := (dt.tv / 3600000) % 24

/-- ECMAScript `MinFromTime`. -/
def getUTCMinutes (dt : JSDate) : Int := (dt.tv / 60000) % 60

/-- `toDate(value)`: decode a code string, or use the number directly, then
`new Date(days * MS_PER_DAY)`. -/
def toDate (value : String ⊕ ℚ) : Except String JSDate :=
  match value with
  | Sum.inl code => (decode code).map fun days => jsNewDate ((days : ℚ) * 86400000)
  | Sum.inr days => .ok (jsNewDate (days * 86400000))

/-- Base-10 digit list of a natural number, most significant first. -/
def digits10 (n : Nat) : List Nat :=
  if h : n < 10 then [n]
  else digits10 (n / 10) ++ [n % 10]
  termination_by n
  decreasing_by exact Nat.div_lt_self (by omega) (by omega)

/-- `String(n)` for a natural number. -/
def natToStr (n : Nat) : String := ⟨(digits10 n).map fun v => Char.ofNat (48 + v)⟩

/-- `String(n)` for an integer. -/
def intToStr (n : Int) : String :=
  if n < 0 then "-" ++ natToStr (-n).toNat else natToStr n.toNat

/-- `String.prototype.padStart(2, '0')`. -/
def padStart2Zero (s : String) : String :=
  ⟨List.replicate (2 - s.data.length) '0' ++ s.data⟩

/-- `toISOString(date)` body once the fields are read: year unpadded, month
and day padded to two digits. -/
def isoFormat (y m d : Int) : String :=
  intToStr y ++ "-" ++ padStart2Zero (intToStr m) ++ "-" ++ padStart2Zero (intToStr d)

/-! ### The `CivilDate` facade -/

/-- Digit value of a character for base-10 parsing, as an integer. -/
def dv (c : Char) : Int := (c.toNat : Int) - 48

/-- `value.match(ISO_REGEX)`: full-string match of
`^(\d{4})-(0[1-9]|1[0-2])-(0[1-9]|[12]\d|3[01])$`, returning the three
captured groups through `parseInt`. -/
def isoShape (cs : List Char) : Option (Int × Int × Int) :=
  match cs with
  | [y1, y2, y3, y4, h1, m1, m2, h2, d1, d2] =>
    if (48 ≤ y1.toNat ∧ y1.toNat ≤ 57) ∧ (48 ≤ y2.toNat ∧ y2.toNat ≤ 57)
        ∧ (48 ≤ y3.toNat ∧ y3.toNat ≤ 57) ∧ (48 ≤ y4.toNat ∧ y4.toNat ≤ 57)
        ∧ h1 = '-' ∧ h2 = '-'
        ∧ ((m1 = '0' ∧ 49 ≤ m2.toNat ∧ m2.toNat ≤ 57)
            ∨ (m1 = '1' ∧ 48 ≤ m2.toNat ∧ m2.toNat ≤ 50))
        ∧ ((d1 = '0' ∧ 49 ≤ d2.toNat ∧ d2.toNat ≤ 57)
            ∨ ((49 ≤ d1.toNat ∧ d1.toNat ≤ 50) ∧ 48 ≤ d2.toNat ∧ d2.toNat ≤ 57)
            ∨ (d1 = '3' ∧ 48 ≤ d2.toNat ∧ d2.toNat ≤ 49))
    then some (1000 * dv y1 + 100 * dv y2 + 10 * dv y3 + dv y4,
               10 * dv m1 + dv m2,
               10 * dv d1 + dv d2)
    else none
  | _ => none

/-- An immutable `CivilDate`; `value` is the JS number stored verbatim. -/
structure CivilDate where
  value : ℚ
deriving DecidableEq

/-- The `typeof value === 'number'` branch of the constructor: direct range
check, value stored verbatim. -/
def civilFromNumber (q : ℚ) : Except String CivilDate :=
  if q < 1296 ∨ q > 46655 then .error "Days out of range"
  else .ok ⟨q⟩

/-- The string branch of the constructor: try the ISO pattern first; on a
pattern match build `new Date(y, m-1, d)`, compare its (normalised) fields
with the parsed ones, and on success store `fromDate(date)`; otherwise fall
through to `decode`. -/
def civilFromString (s : String) : Except String CivilDate :=
  match isoShape s.data with
  | some (y, m, d) =>
    let f := civilFromDays (makeDay (adjustYear y) (m - 1) d)
    if f.1 = y ∧ f.2.1 - 1 = m - 1 ∧ f.2.2 = d
    then .ok ⟨((fromDateFields f.1 (f.2.1 - 1) f.2.2 : Int) : ℚ)⟩
    else .error "Invalid date"
  | none => (decode s).map fun v => ⟨((v : Int) : ℚ)⟩

/-- The `value instanceof Date` branch of the constructor: `fromDate`,
with no range check. -/
def civilFromDate (off : Int → Int) (tv : Int) : CivilDate :=
  ⟨((fromDate off tv : Int) : ℚ)⟩

/-- The no-argument constructor: `fromDate(new Date())` on the current
moment `now`. -/
def civilNow (off : Int → Int) (now : Int) : CivilDate := civilFromDate off now

/-- `CivilDate.prototype.toString`: `encode(this.value)`. -/
def civilToCode (cd : CivilDate) : Except String String := encode cd.value

/-- `CivilDate.prototype.toDate`: `toDate(this.value)` (number path). -/
def civilToDate (cd : CivilDate) : JSDate := jsNewDate (cd.value * 86400000)

/-- `CivilDate.prototype.toISOString`: take the UTC-midnight moment, rebuild
a local date from its UTC fields (`new Date(Y, M0, D)` then reading the local
fields is calendar normalisation), and format. -/
def civilToISOString (cd : CivilDate) : String :=
  let date := civilToDate cd
  let f := getUTCymd date
  let g := civilFromDays (makeDay (adjustYear f.1) (f.2.1 - 1) f.2.2)
  isoFormat g.1 g.2.1 g.2.2

/-! ### Codec lemmas -/

theorem digits36_eq1 {n : Nat} (h : n < 36) : digits36 n = [n] := by
  unfold digits36
  rw [dif_pos h]

theorem digits36_eq2 {n : Nat} (h1 : 36 ≤ n) (h2 : n < 1296) :
    digits36 n = [n / 36, n % 36] := by
  unfold digits36
  rw [dif_neg (by omega)]
  rw [digits36_eq1 (by omega)]
  rfl

theorem digits36_eq3 {n : Nat} (h1 : 1296 ≤ n) (h2 : n < 46656) :
    digits36 n = [n / 1296, n / 36 % 36, n % 36] := by
  unfold digits36
  rw [dif_neg (by omega)]
  rw [digits36_eq2 (by omega) (by omega)]
  have : n / 36 / 36 = n / 1296 := by omega
  rw [this]
  rfl

theorem digitVal36_lt {c : Char} {v : Nat} (h : digitVal36 c = some v) : v < 36 := by
  unfold digitVal36 at h
  split_ifs at h <;> injection h with hv <;> omega

theorem char_eq_ofNat (c : Char) : c = Char.ofNat c.toNat := (Char.ofNat_toNat c).symm

theorem digit_render_val : ∀ v : Nat, v < 36 →
    digitVal36 (jsUpperChar (digitChar36Lower v)) = some v := by decide

theorem digitVal36_upper (c : Char) : digitVal36 (jsUpperChar c) = digitVal36 c := by
  unfold jsUpperChar
  split_ifs with h
  · rw [char_eq_ofNat c]
    have hk : 48 ≤ c.toNat ∧ c.toNat ≤ 122 := by omega
    obtain ⟨hk1, hk2⟩ := h
    generalize c.toNat = k at *
    interval_cases k <;> rfl
  · rfl

theorem render_upper {c : Char} {v : Nat} (h : digitVal36 c = some v) :
    jsUpperChar (digitChar36Lower v) = jsUpperChar c := by
  unfold digitVal36 at h
  split_ifs at h with h1 h2 h3 <;> injection h with hv <;> subst hv <;>
      rw [char_eq_ofNat c]
  · obtain ⟨ha, hb⟩ := h1
    generalize c.toNat = k at *
    interval_cases k <;> rfl
  · obtain ⟨ha, hb⟩ := h2
    generalize c.toNat = k at *
    interval_cases k <;> rfl
  · obtain ⟨ha, hb⟩ := h3
    generalize c.toNat = k at *
    interval_cases k <;> rfl

theorem codeMatches_three {s : String} (h : codeMatches s = true) :
    ∃ c0 c1 c2 v0 v1 v2, s.data = [c0, c1, c2]
      ∧ digitVal36 c0 = some v0 ∧ digitVal36 c1 = some v1 ∧ digitVal36 c2 = some v2 := by
  unfold codeMatches at h
  rw [Bool.and_eq_true] at h
  obtain ⟨hlen, hall⟩ := h
  have hlen3 : s.data.length = 3 := by simpa using hlen
  obtain ⟨c0, c1, c2, hdata⟩ := List.length_eq_three.mp hlen3
  rw [hdata] at hall
  simp only [List.all_cons, List.all_nil, Bool.and_eq_true, Bool.and_true] at hall
  obtain ⟨h0, h1, h2⟩ := hall
  obtain ⟨v0, hv0⟩ := Option.isSome_iff_exists.mp h0
  obtain ⟨v1, hv1⟩ := Option.isSome_iff_exists.mp h1
  obtain ⟨v2, hv2⟩ := Option.isSome_iff_exists.mp h2
  exact ⟨c0, c1, c2, v0, v1, v2, hdata, hv0, hv1, hv2⟩

theorem decode_eq {s : String} {c0 c1 c2 : Char} {v0 v1 v2 : Nat}
    (hdata : s.data = [c0, c1, c2])
    (h0 : digitVal36 c0 = some v0) (h1 : digitVal36 c1 = some v1)
    (h2 : digitVal36 c2 = some v2) :
    decode s = .ok ((1296 * v0 + 36 * v1 + v2 : Nat) : Int) := by
  have hmatch : codeMatches s = true := by
    unfold codeMatches
    rw [hdata]
    simp [h0, h1, h2]
  have hparse : jsParseInt36 [c0, c1, c2]
      = some ((((0 : Int) * 36 + (v0 : Nat)) * 36 + (v1 : Nat)) * 36 + (v2 : Nat)) := by
    unfold jsParseInt36
    simp [List.takeWhile, h0, h1, h2]
  have hval : (((0 : Int) * 36 + (v0 : Nat)) * 36 + (v1 : Nat)) * 36 + (v2 : Nat)
      = ((1296 * v0 + 36 * v1 + v2 : Nat) : Int) := by push_cast; ring
  unfold decode
  rw [if_pos hmatch, hdata, hparse, hval]

theorem decode_not_matched {s : String} (h : codeMatches s = false) :
    decode s = .error "Invalid civil-date code" := by
  unfold decode
  rw [if_neg (by simp [h])]

theorem codeMatches_upper {s : String} (h : codeMatches s = true) :
    codeMatches (jsUpper s) = true := by
  obtain ⟨c0, c1, c2, v0, v1, v2, hdata, h0, h1, h2⟩ := codeMatches_three h
  unfold codeMatches jsUpper
  rw [hdata]
  simp [digitVal36_upper, h0, h1, h2]

theorem decode_upper {s : String} (h : codeMatches s = true) :
    decode (jsUpper s) = decode s := by
  obtain ⟨c0, c1, c2, v0, v1, v2, hdata, h0, h1, h2⟩ := codeMatches_three h
  have hu0 : digitVal36 (jsUpperChar c0) = some v0 := by rw [digitVal36_upper]; exact h0
  have hu1 : digitVal36 (jsUpperChar c1) = some v1 := by rw [digitVal36_upper]; exact h1
  have hu2 : digitVal36 (jsUpperChar c2) = some v2 := by rw [digitVal36_upper]; exact h2
  have hudata : (jsUpper s).data = [jsUpperChar c0, jsUpperChar c1, jsUpperChar c2] := by
    unfold jsUpper
    rw [hdata]
    rfl
  rw [decode_eq hudata hu0 hu1 hu2, decode_eq hdata h0 h1 h2]

theorem encode_in_range {q : ℚ} (h1 : 1296 ≤ q) (h2 : q ≤ 46655) :
    encode q = .ok (codeOfDays (Rat.floor q)) := by
  unfold encode
  rw [if_neg (by push_neg; exact ⟨by exact_mod_cast h1, by exact_mod_cast h2⟩)]

theorem encode_out_of_range {q : ℚ} (h : q < 1296 ∨ q > 46655) :
    encode q = .error "Days out of range" := by
  unfold encode
  rw [if_pos h]

theorem codeOfDays_digits {n : Int} (h1 : 1296 ≤ n) (h2 : n ≤ 46655) :
    codeOfDays n = ⟨[jsUpperChar (digitChar36Lower (n.toNat / 1296)),
                     jsUpperChar (digitChar36Lower (n.toNat / 36 % 36)),
                     jsUpperChar (digitChar36Lower (n.toNat % 36))]⟩ := by
  unfold codeOfDays toString36
  rw [if_neg (by omega)]
  rw [digits36_eq3 (by omega) (by omega)]
  unfold jsUpper padStart3Zero
  simp [List.replicate]

theorem rat_floor_eq_floor (q : ℚ) : Rat.floor q = ⌊q⌋ := rfl

theorem floor_int_bounds {q : ℚ} (h1 : 1296 ≤ q) (h2 : q ≤ 46655) :
    1296 ≤ Rat.floor q ∧ Rat.floor q ≤ 46655 := by
  rw [rat_floor_eq_floor]
  constructor
  · rw [Int.le_floor]
    exact_mod_cast h1
  · have := Int.floor_le q
    have hle : ((⌊q⌋ : ℚ)) ≤ 46655 := le_trans this h2
    exact_mod_cast hle

theorem decode_codeOfDays {n : Int} (h1 : 1296 ≤ n) (h2 : n ≤ 46655) :
    decode (codeOfDays n) = .ok n := by
  have hd := codeOfDays_digits h1 h2
  have b0 : n.toNat / 1296 < 36 := by omega
  have b1 : n.toNat / 36 % 36 < 36 := by omega
  have b2 : n.toNat % 36 < 36 := by omega
  have hv0 := digit_render_val _ b0
  have hv1 := digit_render_val _ b1
  have hv2 := digit_render_val _ b2
  have hdata : (codeOfDays n).data = [jsUpperChar (digitChar36Lower (n.toNat / 1296)),
      jsUpperChar (digitChar36Lower (n.toNat / 36 % 36)),
      jsUpperChar (digitChar36Lower (n.toNat % 36))] := by rw [hd]
  rw [decode_eq hdata hv0 hv1 hv2]
  have : (1296 * (n.toNat / 1296) + 36 * (n.toNat / 36 % 36) + n.toNat % 36) = n.toNat := by
    omega
  rw [this]
  congr 1
  omega

theorem codeOfDays_of_digits {s : String} {c0 c1 c2 : Char} {v0 v1 v2 : Nat}
    (hdata : s.data = [c0, c1, c2])
    (h0 : digitVal36 c0 = some v0) (h1 : digitVal36 c1 = some v1)
    (h2 : digitVal36 c2 = some v2)
    (hlo : 1296 ≤ (1296 * v0 + 36 * v1 + v2 : Nat)) :
    codeOfDays ((1296 * v0 + 36 * v1 + v2 : Nat) : Int) = jsUpper s := by
  have b0 := digitVal36_lt h0
  have b1 := digitVal36_lt h1
  have b2 := digitVal36_lt h2
  set n : Nat := 1296 * v0 + 36 * v1 + v2 with hn
  have hhi : (n : Int) ≤ 46655 := by omega
  have hd := codeOfDays_digits (n := (n : Int)) (by exact_mod_cast hlo) hhi
  have htn : ((n : Int)).toNat = n := by omega
  rw [htn] at hd
  have e0 : n / 1296 = v0 := by omega
  have e1 : n / 36 % 36 = v1 := by omega
  have e2 : n % 36 = v2 := by omega
  rw [e0, e1, e2] at hd
  rw [hd]
  unfold jsUpper
  rw [hdata]
  have r0 := render_upper h0
  have r1 := render_upper h1
  have r2 := render_upper h2
  simp [r0, r1, r2]

/-! ### ISO-shape analysis -/

theorem isoShape_elim {cs : List Char} {y m d : Int} (h : isoShape cs = some (y, m, d)) :
    ∃ y1 y2 y3 y4 m1 m2 d1 d2 : Char,
      cs = [y1, y2, y3, y4, '-', m1, m2, '-', d1, d2]
      ∧ (48 ≤ y1.toNat ∧ y1.toNat ≤ 57) ∧ (48 ≤ y2.toNat ∧ y2.toNat ≤ 57)
      ∧ (48 ≤ y3.toNat ∧ y3.toNat ≤ 57) ∧ (48 ≤ y4.toNat ∧ y4.toNat ≤ 57)
      ∧ ((m1 = '0' ∧ 49 ≤ m2.toNat ∧ m2.toNat ≤ 57)
          ∨ (m1 = '1' ∧ 48 ≤ m2.toNat ∧ m2.toNat ≤ 50))
      ∧ ((d1 = '0' ∧ 49 ≤ d2.toNat ∧ d2.toNat ≤ 57)
          ∨ ((49 ≤ d1.toNat ∧ d1.toNat ≤ 50) ∧ 48 ≤ d2.toNat ∧ d2.toNat ≤ 57)
          ∨ (d1 = '3' ∧ 48 ≤ d2.toNat ∧ d2.toNat ≤ 49))
      ∧ y = 1000 * dv y1 + 100 * dv y2 + 10 * dv y3 + dv y4
      ∧ m = 10 * dv m1 + dv m2
      ∧ d = 10 * dv d1 + dv d2 := by
  rcases cs with _ | ⟨y1, _ | ⟨y2, _ | ⟨y3, _ | ⟨y4, _ | ⟨h1, _ | ⟨m1, _ | ⟨m2, _ | ⟨h2,
      _ | ⟨d1, _ | ⟨d2, _ | ⟨x, rest⟩⟩⟩⟩⟩⟩⟩⟩⟩⟩⟩ <;>
    try exact Option.noConfusion h
  simp only [isoShape] at h
  split_ifs at h with hc
  · simp only [Option.some.injEq, Prod.mk.injEq] at h
    obtain ⟨hy, hm, hd⟩ := h
    obtain ⟨hy1, hy2, hy3, hy4, hh1, hh2, hmo, hdo⟩ := hc
    exact ⟨y1, y2, y3, y4, m1, m2, d1, d2, by rw [hh1, hh2],
      hy1, hy2, hy3, hy4, hmo, hdo, hy.symm, hm.symm, hd.symm⟩

theorem isoShape_bounds {cs : List Char} {y m d : Int} (h : isoShape cs = some (y, m, d)) :
    0 ≤ y ∧ y ≤ 9999 ∧ 1 ≤ m ∧ m ≤ 12 ∧ 1 ≤ d ∧ d ≤ 31 := by
  obtain ⟨y1, y2, y3, y4, m1, m2, d1, d2, _, hy1, hy2, hy3, hy4, hmo, hdo, hy, hm, hd⟩ :=
    isoShape_elim h
  have c0 : ('0' : Char).toNat = 48 := rfl
  have c1 : ('1' : Char).toNat = 49 := rfl
  have c3 : ('3' : Char).toNat = 51 := rfl
  rcases hmo with ⟨hm1, hm2⟩ | ⟨hm1, hm2⟩ <;>
      rcases hdo with ⟨hd1, hd2⟩ | ⟨hd1, hd2⟩ | ⟨hd1, hd2⟩ <;>
      (try subst hm1) <;> (try subst hd1) <;>
      simp only [dv, c0, c1, c3] at hy hm hd <;>
      omega

/-! ### CivilDate constructor: string path -/

theorem fromDateFields_eq (y m0 d : Int) : fromDateFields y m0 d = makeDay (adjustYear y) m0 d := by
  unfold fromDateFields dateUTC msPerDay
  omega

theorem civilFromString_iso {s : String} {y m d : Int} (h : isoShape s.data = some (y, m, d)) :
    civilFromString s =
      (let f := civilFromDays (makeDay (adjustYear y) (m - 1) d)
       if f.1 = y ∧ f.2.1 - 1 = m - 1 ∧ f.2.2 = d
       then .ok ⟨((fromDateFields f.1 (f.2.1 - 1) f.2.2 : Int) : ℚ)⟩
       else .error "Invalid date") := by
  unfold civilFromString
  rw [h]

theorem civilFromString_code {s : String} (h : isoShape s.data = none) :
    civilFromString s = (decode s).map fun v => ⟨((v : Int) : ℚ)⟩ := by
  unfold civilFromString
  rw [h]

theorem adjustYear_low {y : Int} (h1 : 0 ≤ y) (h2 : y ≤ 99) : adjustYear y = y + 1900 := by
  unfold adjustYear
  rw [if_pos ⟨h1, h2⟩]

theorem adjustYear_high {y : Int} (h : 100 ≤ y) : adjustYear y = y := by
  unfold adjustYear
  rw [if_neg (by omega)]

/-- The year field after normalisation is the input year or its successor. -/
theorem civil_first_near (y m d : Int) (hm1 : 1 ≤ m) (hm2 : m ≤ 12)
    (hd1 : 1 ≤ d) (hd2 : d ≤ 31) :
    (civilFromDays (makeDay y (m - 1) d)).1 = y
      ∨ (civilFromDays (makeDay y (m - 1) d)).1 = y + 1 := by
  by_cases hin : d ≤ daysInMonth y m
  · left
    rw [civil_makeDay y m d hm1 hm2 hd1 hin]
  · rw [civil_makeDay_roll y m d hm1 hm2 (by omega) hd2]
    by_cases h12 : m = 12
    · right
      simp [h12]
    · left
      simp [h12]

/-- After a day-of-month overflow the normalised month differs from the input. -/
theorem civil_roll_month_ne (y m d : Int) (hm1 : 1 ≤ m) (hm2 : m ≤ 12)
    (hdlt : daysInMonth y m < d) (hd2 : d ≤ 31) :
    (civilFromDays (makeDay y (m - 1) d)).2.1 ≠ m := by
  rw [civil_makeDay_roll y m d hm1 hm2 hdlt hd2]
  by_cases h12 : m = 12
  · subst h12
    simp
  · simp [h12]

/-- A pattern-shaped but calendar-invalid triple always fails the
construct-then-compare validity check. -/
theorem iso_invalid_fields {y m d : Int} (hy1 : 0 ≤ y) (hy2 : y ≤ 9999)
    (hm1 : 1 ≤ m) (hm2 : m ≤ 12) (hd1 : 1 ≤ d) (hd2 : d ≤ 31)
    (hnr : ¬ isRealDate y m d) :
    ¬ ((civilFromDays (makeDay (adjustYear y) (m - 1) d)).1 = y
       ∧ (civilFromDays (makeDay (adjustYear y) (m - 1) d)).2.1 - 1 = m - 1
       ∧ (civilFromDays (makeDay (adjustYear y) (m - 1) d)).2.2 = d) := by
  have hdlt : daysInMonth y m < d := by
    unfold isRealDate at hnr
    omega
  by_cases hq : y ≤ 99
  · rw [adjustYear_low hy1 hq]
    rintro ⟨h1, -, -⟩
    rcases civil_first_near (y + 1900) m d hm1 hm2 hd1 hd2 with he | he <;> omega
  · rw [adjustYear_high (by omega)]
    rintro ⟨-, h2, -⟩
    exact civil_roll_month_ne y m d hm1 hm2 hdlt hd2 (by omega)

/-- The general "Invalid date" result for ISO-shaped, calendar-invalid input. -/
theorem civilFromString_invalid {s : String} {y m d : Int}
    (h : isoShape s.data = some (y, m, d)) (hnr : ¬ isRealDate y m d) :
    civilFromString s = .error "Invalid date" := by
  obtain ⟨hy1, hy2, hm1, hm2, hd1, hd2⟩ := isoShape_bounds h
  rw [civilFromString_iso h]
  simp only
  rw [if_neg (iso_invalid_fields hy1 hy2 hm1 hm2 hd1 hd2 hnr)]

/-- The successful ISO path: a real date with year ≥ 100 is accepted and
stores the `MakeDay` day count. -/
theorem civilFromString_valid {s : String} {y m d : Int}
    (h : isoShape s.data = some (y, m, d)) (hy100 : 100 ≤ y)
    (hreal : isRealDate y m d) :
    civilFromString s = .ok ⟨((makeDay y (m - 1) d : Int) : ℚ)⟩ := by
  obtain ⟨hm1, hm2, hd1, hd2⟩ := hreal
  have hadj : adjustYear y = y := adjustYear_high hy100
  rw [civilFromString_iso h]
  simp only [hadj, civil_makeDay y m d hm1 hm2 hd1 hd2]
  rw [if_pos ⟨trivial, trivial, trivial⟩]
  rw [fromDateFields_eq, hadj]

theorem year_range_of_count {y m d : Int} (hreal : isRealDate y m d)
    (hlo : 1296 ≤ makeDay y (m - 1) d) (hhi : makeDay y (m - 1) d ≤ 46655) :
    1973 ≤ y ∧ y ≤ 2097 := by
  obtain ⟨hm1, hm2, hd1, hd2⟩ := hreal
  unfold daysInMonth at hd2
  have hl := leapDays_bounds y
  have hmk := makeDay_eq y m d hm1 hm2
  have hoff := monthStartC_bounds (leapDays y) m d hl.1 hl.2 hm1 hm2 hd1 hd2
  have hsucc := dayFromYear_succ y
  have ha : dayFromYear 1973 = 1096 := by decide
  have hb : dayFromYear 2098 = 46752 := by decide
  constructor
  · by_contra hcon
    have : dayFromYear (y + 1) ≤ dayFromYear 1973 := dayFromYear_mono (by omega)
    omega
  · by_contra hcon
    have : dayFromYear 2098 ≤ dayFromYear y := dayFromYear_mono (by omega)
    omega

/-! ### Decimal rendering -/

theorem digits10_eq1 {n : Nat} (h : n < 10) : digits10 n = [n] := by
  unfold digits10
  rw [dif_pos h]

theorem digits10_eq2 {n : Nat} (h1 : 10 ≤ n) (h2 : n < 100) :
    digits10 n = [n / 10, n % 10] := by
  unfold digits10
  rw [dif_neg (by omega), digits10_eq1 (by omega)]
  rfl

theorem digits10_eq3 {n : Nat} (h1 : 100 ≤ n) (h2 : n < 1000) :
    digits10 n = [n / 100, n / 10 % 10, n % 10] := by
  unfold digits10
  rw [dif_neg (by omega), digits10_eq2 (by omega) (by omega)]
  have : n / 10 / 10 = n / 100 := by omega
  rw [this]
  rfl

theorem digits10_eq4 {n : Nat} (h1 : 1000 ≤ n) (h2 : n < 10000) :
    digits10 n = [n / 1000, n / 100 % 10, n / 10 % 10, n % 10] := by
  unfold digits10
  rw [dif_neg (by omega), digits10_eq3 (by omega) (by omega)]
  have e1 : n / 10 / 100 = n / 1000 := by omega
  have e2 : n / 10 / 10 % 10 = n / 100 % 10 := by omega
  rw [e1, e2]
  rfl

theorem intToStr_4digit {n : Int} (h1 : 1000 ≤ n) (h2 : n < 10000) :
    intToStr n = ⟨[Char.ofNat (48 + n.toNat / 1000), Char.ofNat (48 + n.toNat / 100 % 10),
                   Char.ofNat (48 + n.toNat / 10 % 10), Char.ofNat (48 + n.toNat % 10)]⟩ := by
  unfold intToStr natToStr
  rw [if_neg (by omega), digits10_eq4 (by omega) (by omega)]
  rfl

theorem pad2_one_digit {n : Int} (h1 : 0 ≤ n) (h2 : n ≤ 9) :
    padStart2Zero (intToStr n) = ⟨['0', Char.ofNat (48 + n.toNat)]⟩ := by
  unfold intToStr natToStr
  rw [if_neg (by omega), digits10_eq1 (by omega)]
  unfold padStart2Zero
  rfl

theorem pad2_two_digit {n : Int} (h1 : 10 ≤ n) (h2 : n ≤ 99) :
    padStart2Zero (intToStr n)
      = ⟨[Char.ofNat (48 + n.toNat / 10), Char.ofNat (48 + n.toNat % 10)]⟩ := by
  unfold intToStr natToStr
  rw [if_neg (by omega), digits10_eq2 (by omega) (by omega)]
  unfold padStart2Zero
  rfl

theorem str_mk_append (a b : List Char) : (⟨a⟩ : String) ++ ⟨b⟩ = ⟨a ++ b⟩ := rfl

/-- Re-rendering the parsed fields of an ISO-shaped string (with a four-digit
year not starting in 0) reproduces the string. -/
theorem render_iso {cs : List Char} {y m d : Int}
    (h : isoShape cs = some (y, m, d)) (hy : 1000 ≤ y) :
    isoFormat y m d = ⟨cs⟩ := by
  obtain ⟨y1, y2, y3, y4, m1, m2, d1, d2, hcs, hy1, hy2, hy3, hy4, hmo, hdo, hyv, hmv, hdv⟩ :=
    isoShape_elim h
  obtain ⟨hb1, hb2, hb3, hb4, hb5, hb6⟩ := isoShape_bounds h
  unfold dv at hyv hmv hdv
  have hyN : (y.toNat : Int) = y := Int.toNat_of_nonneg (by omega)
  have hmN : (m.toNat : Int) = m := Int.toNat_of_nonneg (by omega)
  have hdN : (d.toNat : Int) = d := Int.toNat_of_nonneg (by omega)
  have hyr : intToStr y = ⟨[y1, y2, y3, y4]⟩ := by
    rw [intToStr_4digit hy (by omega)]
    have e1 : 48 + y.toNat / 1000 = y1.toNat := by omega
    have e2 : 48 + y.toNat / 100 % 10 = y2.toNat := by omega
    have e3 : 48 + y.toNat / 10 % 10 = y3.toNat := by omega
    have e4 : 48 + y.toNat % 10 = y4.toNat := by omega
    rw [e1, e2, e3, e4, ← char_eq_ofNat, ← char_eq_ofNat, ← char_eq_ofNat, ← char_eq_ofNat]
  have hmr : padStart2Zero (intToStr m) = ⟨[m1, m2]⟩ := by
    rcases hmo with ⟨hm1, hm2⟩ | ⟨hm1, hm2⟩
    · subst hm1
      have c0 : ('0' : Char).toNat = 48 := rfl
      simp only [c0] at hmv
      rw [pad2_one_digit (by omega) (by omega)]
      have e : 48 + m.toNat = m2.toNat := by omega
      rw [e, ← char_eq_ofNat]
    · subst hm1
      have c1 : ('1' : Char).toNat = 49 := rfl
      simp only [c1] at hmv
      rw [pad2_two_digit (by omega) (by omega)]
      have e1 : 48 + m.toNat / 10 = ('1' : Char).toNat := by
        rw [c1]; omega
      have e2 : 48 + m.toNat % 10 = m2.toNat := by omega
      rw [e1, e2, ← char_eq_ofNat, ← char_eq_ofNat]
  have hdr : padStart2Zero (intToStr d) = ⟨[d1, d2]⟩ := by
    rcases hdo with ⟨hd1, hd2⟩ | ⟨⟨hd1a, hd1b⟩, hd2⟩ | ⟨hd1, hd2⟩
    · subst hd1
      have c0 : ('0' : Char).toNat = 48 := rfl
      simp only [c0] at hdv
      rw [pad2_one_digit (by omega) (by omega)]
      have e : 48 + d.toNat = d2.toNat := by omega
      rw [e, ← char_eq_ofNat]
    · rw [pad2_two_digit (by omega) (by omega)]
      have e1 : 48 + d.toNat / 10 = d1.toNat := by omega
      have e2 : 48 + d.toNat % 10 = d2.toNat := by omega
      rw [e1, e2, ← char_eq_ofNat, ← char_eq_ofNat]
    · subst hd1
      have c3 : ('3' : Char).toNat = 51 := rfl
      simp only [c3] at hdv
      rw [pad2_two_digit (by omega) (by omega)]
      have e1 : 48 + d.toNat / 10 = ('3' : Char).toNat := by
        rw [c3]; omega
      have e2 : 48 + d.toNat % 10 = d2.toNat := by omega
      rw [e1, e2, ← char_eq_ofNat, ← char_eq_ofNat]
  unfold isoFormat
  rw [hyr, hmr, hdr, hcs]
  rw [show ("-" : String) = ⟨['-']⟩ from rfl]
  rw [str_mk_append, str_mk_append, str_mk_append, str_mk_append]
  rfl

/-! ### Rational / date bridges -/

theorem rat_floor_intCast (n : Int) : Rat.floor ((n : Int) : ℚ) = n := by
  rw [rat_floor_eq_floor]
  exact Int.floor_intCast n

theorem ratTrunc_intCast (n : Int) : ratTrunc ((n : Int) : ℚ) = n := by
  unfold ratTrunc
  split_ifs with h
  · exact rat_floor_intCast n
  · rw [show (-((n : Int) : ℚ)) = (((-n : Int)) : ℚ) by push_cast; ring, rat_floor_intCast]
    ring

theorem intCast_mul_msday (n : Int) : ((n : Int) : ℚ) * 86400000 = ((n * 86400000 : Int) : ℚ) := by
  push_cast
  ring

theorem civilToDate_int (v : Int) : civilToDate ⟨((v : Int) : ℚ)⟩ = ⟨v * 86400000⟩ := by
  unfold civilToDate jsNewDate
  rw [intCast_mul_msday, ratTrunc_intCast]

theorem dayOfTv_exact (v : Int) : dayOfTv (v * 86400000) = v := by
  unfold dayOfTv msPerDay
  omega

/-! ### Claim theorems -/

/-- Claim C1 (counterexample): the string-code entry point accepts the
syntactically valid code "000", constructing a CivilDate whose value 0 lies
far below 1296 — no error is raised, contradicting the claim that every
entry point rejects out-of-range day counts. -/
theorem c1_counterexample :
    civilFromString "000" = .ok ⟨(0 : ℚ)⟩ ∧ ¬((1296 : ℚ) ≤ (0 : ℚ)) := by
  constructor
  · decide
  · decide

/-- Claim C1 (amended): only the bare-number constructor branch and `encode`
enforce the range [1296, 46655]; the Code-string, ISO-string, and Date entry
points store whatever day count the conversion produces (e.g. code "000" gives
value 0, ISO "1970-01-02" gives value 1, a Date at the epoch gives value 0). -/
theorem c1_amended :
    (∀ (q : ℚ) (cd : CivilDate), civilFromNumber q = .ok cd →
        1296 ≤ cd.value ∧ cd.value ≤ 46655)
    ∧ (∀ (q : ℚ) (c : String), encode q = .ok c → 1296 ≤ q ∧ q ≤ 46655)
    ∧ civilFromString "000" = .ok ⟨(0 : ℚ)⟩
    ∧ civilFromString "1970-01-02" = .ok ⟨(1 : ℚ)⟩
    ∧ civilFromDate (fun _ => 0) 0 = ⟨(0 : ℚ)⟩ := by
  refine ⟨?_, ?_, by decide, by decide, by decide⟩
  · intro q cd h
    unfold civilFromNumber at h
    split_ifs at h with hc
    cases h
    push_neg at hc
    exact ⟨hc.1, hc.2⟩
  · intro q c h
    unfold encode at h
    split_ifs at h with hc
    push_neg at hc
    exact ⟨hc.1, hc.2⟩

theorem c1_amended_witness :
    civilFromNumber (20445 : ℚ) = .ok ⟨(20445 : ℚ)⟩
    ∧ (1296 ≤ (CivilDate.mk (20445 : ℚ)).value ∧ (CivilDate.mk (20445 : ℚ)).value ≤ 46655) :=
  ⟨by decide, c1_amended.1 20445 ⟨(20445 : ℚ)⟩ (by decide)⟩

/-- Claim C2 (counterexample): `encode(46655.9)` does NOT succeed — the source
range-checks the raw argument before flooring, and 46655.9 > 46655, so it
throws RangeError "Days out of range" even though floor(46655.9) = 46655 is
in range. -/
theorem c2_counterexample :
    Rat.floor (466559 / 10 : ℚ) = 46655
    ∧ (1296 : Int) ≤ 46655 ∧ (46655 : Int) ≤ 46655
    ∧ encode (466559 / 10 : ℚ) = .error "Days out of range" := by
  refine ⟨?_, by norm_num, by norm_num, ?_⟩
  · rw [rat_floor_eq_floor]
    norm_num
  · apply encode_out_of_range
    right
    norm_num

/-- Claim C2 (amended): `encode` validates the raw numeric input first and
floors afterwards: it succeeds, returning the 3-character code of
`floor(days)`, exactly when `1296 ≤ days ≤ 46655` holds of the raw number,
and otherwise fails with RangeError "Days out of range" (so `encode(46655.9)`
throws, while `encode(20445.9)` succeeds). -/
theorem c2_amended :
    ∀ q : ℚ,
      (1296 ≤ q ∧ q ≤ 46655 →
        encode q = .ok (codeOfDays (Rat.floor q))
        ∧ (codeOfDays (Rat.floor q)).data.length = 3)
      ∧ (¬(1296 ≤ q ∧ q ≤ 46655) → encode q = .error "Days out of range") := by
  intro q
  constructor
  · rintro ⟨h1, h2⟩
    refine ⟨encode_in_range h1 h2, ?_⟩
    obtain ⟨f1, f2⟩ := floor_int_bounds h1 h2
    rw [codeOfDays_digits f1 f2]
    rfl
  · intro h
    apply encode_out_of_range
    by_contra hc
    push_neg at hc
    exact h ⟨hc.1, hc.2⟩

theorem c2_amended_witness :
    ((1296 : ℚ) ≤ 20445 ∧ (20445 : ℚ) ≤ 46655)
    ∧ encode (20445 : ℚ) = .ok (codeOfDays (Rat.floor (20445 : ℚ)))
    ∧ ¬((1296 : ℚ) ≤ 50000 ∧ (50000 : ℚ) ≤ 46655)
    ∧ encode (50000 : ℚ) = .error "Days out of range" :=
  ⟨⟨by decide, by decide⟩, ((c2_amended 20445).1 ⟨by decide, by decide⟩).1,
   by decide, (c2_amended 50000).2 (by decide)⟩

/-- Claim C3: the codec round-trips in both directions: `decode (encode d) = d`
for every integer day count in [1296, 46655], and
`encode (decode (toUpperCase c)) = toUpperCase c` for every 3-character
alphanumeric string `c` whose decoded value is in [1296, 46655]. -/
theorem c3_roundtrip :
    (∀ d : Int, 1296 ≤ d → d ≤ 46655 →
      encode ((d : Int) : ℚ) = .ok (codeOfDays d) ∧ decode (codeOfDays d) = .ok d)
    ∧ (∀ (s : String) (v : Int), codeMatches s = true → decode (jsUpper s) = .ok v →
        1296 ≤ v → v ≤ 46655 → encode ((v : Int) : ℚ) = .ok (jsUpper s)) := by
  constructor
  · intro d h1 h2
    constructor
    · rw [encode_in_range (by exact_mod_cast h1) (by exact_mod_cast h2), rat_floor_intCast]
    · exact decode_codeOfDays h1 h2
  · intro s v hm hdec h1 h2
    obtain ⟨c0, c1, c2, v0, v1, v2, hdata, h0, hv1, hv2⟩ := codeMatches_three hm
    have hu0 : digitVal36 (jsUpperChar c0) = some v0 := by rw [digitVal36_upper]; exact h0
    have hu1 : digitVal36 (jsUpperChar c1) = some v1 := by rw [digitVal36_upper]; exact hv1
    have hu2 : digitVal36 (jsUpperChar c2) = some v2 := by rw [digitVal36_upper]; exact hv2
    have hudata : (jsUpper s).data = [jsUpperChar c0, jsUpperChar c1, jsUpperChar c2] := by
      unfold jsUpper
      rw [hdata]
      rfl
    rw [decode_eq hudata hu0 hu1 hu2] at hdec
    have hveq : v = ((1296 * v0 + 36 * v1 + v2 : Nat) : Int) := by
      injection hdec with hq
      exact hq.symm
    have hlo : 1296 ≤ (1296 * v0 + 36 * v1 + v2 : Nat) := by omega
    rw [encode_in_range (by exact_mod_cast h1) (by exact_mod_cast h2), rat_floor_intCast, hveq]
    rw [codeOfDays_of_digits hdata h0 hv1 hv2 hlo]

theorem c3_roundtrip_witness :
    ((1296 : Int) ≤ 20445 ∧ (20445 : Int) ≤ 46655
      ∧ encode ((20445 : Int) : ℚ) = .ok (codeOfDays 20445)
      ∧ decode (codeOfDays 20445) = .ok 20445)
    ∧ (codeMatches "frx" = true ∧ decode (jsUpper "frx") = .ok 20445
      ∧ encode ((20445 : Int) : ℚ) = .ok (jsUpper "frx")) :=
  ⟨⟨by decide, by decide, (c3_roundtrip.1 20445 (by decide) (by decide)).1,
    (c3_roundtrip.1 20445 (by decide) (by decide)).2⟩,
   ⟨by decide, by decide,
    c3_roundtrip.2 "frx" 20445 (by decide) (by decide) (by decide) (by decide)⟩⟩

/-- Claim C4: `decode` succeeds exactly on strings matching
`^[0-9A-Za-z]{3}$`, returning a value in [0, 46655] with no lower-bound
check, case-insensitively (`decode c = decode (toUpperCase c)`), and fails
with "Invalid civil-date code" on every other string. -/
theorem c4_decode_spec :
    (∀ s : String, codeMatches s = true →
        ∃ v : Int, decode s = .ok v ∧ 0 ≤ v ∧ v ≤ 46655 ∧ decode (jsUpper s) = .ok v)
    ∧ (∀ s : String, codeMatches s = false → decode s = .error "Invalid civil-date code")
    ∧ decode "FRX" = .ok 20445 ∧ decode "frx" = .ok 20445
    ∧ decode "???" = .error "Invalid civil-date code"
    ∧ decode "" = .error "Invalid civil-date code"
    ∧ decode "FR" = .error "Invalid civil-date code"
    ∧ decode "FRXX" = .error "Invalid civil-date code" := by
  refine ⟨?_, ?_, by decide, by decide, by decide, by decide, by decide, by decide⟩
  · intro s hm
    obtain ⟨c0, c1, c2, v0, v1, v2, hdata, h0, h1, h2⟩ := codeMatches_three hm
    have b0 := digitVal36_lt h0
    have b1 := digitVal36_lt h1
    have b2 := digitVal36_lt h2
    refine ⟨((1296 * v0 + 36 * v1 + v2 : Nat) : Int), decode_eq hdata h0 h1 h2,
      by omega, by omega, ?_⟩
    rw [decode_upper hm, decode_eq hdata h0 h1 h2]
  · intro s hm
    exact decode_not_matched hm

theorem c4_decode_spec_witness :
    codeMatches "frx" = true
    ∧ ∃ v : Int, decode "frx" = .ok v ∧ 0 ≤ v ∧ v ≤ 46655 ∧ decode (jsUpper "frx") = .ok v :=
  ⟨by decide, c4_decode_spec.1 "frx" (by decide)⟩

/-- Claim C5: `fromDate` depends only on the local calendar fields of its
input: any two moments (time values under possibly different local-offset
environments) with equal local year/month/day produce the same day count, and
the result is exactly `Date.UTC(localYear, localMonth, localDay)` floor-divided
by 86,400,000. -/
theorem c5_fromdate_local_fields :
    (∀ (off1 off2 : Int → Int) (tv1 tv2 : Int),
        localYmd off1 tv1 = localYmd off2 tv2 → fromDate off1 tv1 = fromDate off2 tv2)
    ∧ (∀ (off : Int → Int) (tv : Int),
        fromDate off tv
          = dateUTC (localYmd off tv).1 ((localYmd off tv).2.1 - 1) (localYmd off tv).2.2
              / msPerDay) := by
  constructor
  · intro off1 off2 tv1 tv2 h
    unfold fromDate
    rw [h]
  · intro off tv
    rfl

theorem c5_fromdate_local_fields_witness :
    localYmd (fun _ => -21600000) 1766473200000 = localYmd (fun _ => -21600000) 1766552400000
    ∧ fromDate (fun _ => -21600000) 1766473200000
        = fromDate (fun _ => -21600000) 1766552400000 :=
  ⟨by decide, c5_fromdate_local_fields.1 _ _ _ _ (by decide)⟩

/-- Claim C6: for a string argument the constructor first tries the ISO
pattern; an ISO-shaped string whose numeric triple is not a real calendar
date (leap-year aware) fails with "Invalid date" ('2025-02-30' and
'2023-02-29' included, while leap day '2024-02-29' is accepted), and a string
not matching the ISO shape falls through to Code decoding, failing with
"Invalid civil-date code" when that also fails ('invalid', '2025/01/01'). -/
theorem c6_dispatch :
    (∀ (s : String) (y m d : Int), isoShape s.data = some (y, m, d) →
        ¬ isRealDate y m d → civilFromString s = .error "Invalid date")
    ∧ civilFromString "2024-02-29" = .ok ⟨(19782 : ℚ)⟩
    ∧ civilFromString "2025-02-30" = .error "Invalid date"
    ∧ civilFromString "2023-02-29" = .error "Invalid date"
    ∧ (∀ s : String, isoShape s.data = none →
        civilFromString s = (decode s).map fun v => ⟨((v : Int) : ℚ)⟩)
    ∧ civilFromString "invalid" = .error "Invalid civil-date code"
    ∧ civilFromString "2025/01/01" = .error "Invalid civil-date code" := by
  refine ⟨?_, by decide, by decide, by decide, ?_, by decide, by decide⟩
  · intro s y m d h hnr
    exact civilFromString_invalid h hnr
  · intro s h
    exact civilFromString_code h

theorem c6_dispatch_witness :
    isoShape "2025-02-30".data = some (2025, 2, 30)
    ∧ ¬ isRealDate 2025 2 30
    ∧ civilFromString "2025-02-30" = .error "Invalid date" :=
  ⟨by decide, by decide, c6_dispatch.1 "2025-02-30" 2025 2 30 (by decide) (by decide)⟩

/-- Claim C7: `toDate` on a DayCount `d` returns the moment exactly
`d * 86,400,000` milliseconds since the epoch; in particular the moment for
day 20445 has UTC fields year 2025, month December (`getUTCMonth = 11`),
day 23, hour 0, minute 0. -/
theorem c7_todate_utc_midnight :
    (∀ d : Int, 1296 ≤ d → d ≤ 46655 →
        toDate (Sum.inr ((d : Int) : ℚ)) = .ok ⟨d * 86400000⟩)
    ∧ getUTCFullYear ⟨20445 * 86400000⟩ = 2025
    ∧ getUTCMonth ⟨20445 * 86400000⟩ = 11
    ∧ getUTCDate ⟨20445 * 86400000⟩ = 23
    ∧ getUTCHours ⟨20445 * 86400000⟩ = 0
    ∧ getUTCMinutes ⟨20445 * 86400000⟩ = 0 := by
  refine ⟨?_, by decide, by decide, by decide, by decide, by decide⟩
  intro d h1 h2
  show Except.ok (jsNewDate (((d : Int) : ℚ) * 86400000)) = .ok ⟨d * 86400000⟩
  unfold jsNewDate
  rw [intCast_mul_msday, ratTrunc_intCast]

theorem c7_todate_utc_midnight_witness :
    ((1296 : Int) ≤ 20445 ∧ (20445 : Int) ≤ 46655)
    ∧ toDate (Sum.inr ((20445 : Int) : ℚ)) = .ok ⟨20445 * 86400000⟩ :=
  ⟨⟨by decide, by decide⟩, c7_todate_utc_midnight.1 20445 (by decide) (by decide)⟩

/-- Claim C8: the bare-number constructor succeeds exactly on
`1296 ≤ n ≤ 46655` (failing with "Days out of range" otherwise, e.g. for 1000
and 50000), and stores the number verbatim without flooring, so the
non-integer 20445.5 is kept as-is. -/
theorem c8_number_ctor :
    (∀ q : ℚ, 1296 ≤ q → q ≤ 46655 → civilFromNumber q = .ok ⟨q⟩)
    ∧ (∀ q : ℚ, ¬(1296 ≤ q ∧ q ≤ 46655) →
        civilFromNumber q = .error "Days out of range")
    ∧ civilFromNumber 1000 = .error "Days out of range"
    ∧ civilFromNumber 50000 = .error "Days out of range"
    ∧ civilFromNumber (40891 / 2 : ℚ) = .ok ⟨(40891 / 2 : ℚ)⟩ := by
  refine ⟨?_, ?_, by decide, by decide, ?_⟩
  · intro q h1 h2
    unfold civilFromNumber
    rw [if_neg (by push_neg; exact ⟨h1, h2⟩)]
  · intro q h
    unfold civilFromNumber
    rw [if_pos]
    by_contra hc
    push_neg at hc
    exact h ⟨hc.1, hc.2⟩
  · unfold civilFromNumber
    rw [if_neg (by push_neg; constructor <;> norm_num)]

theorem c8_number_ctor_witness :
    ((1296 : ℚ) ≤ 20445 ∧ (20445 : ℚ) ≤ 46655)
    ∧ civilFromNumber (20445 : ℚ) = .ok ⟨(20445 : ℚ)⟩ :=
  ⟨⟨by decide, by decide⟩, c8_number_ctor.1 20445 (by decide) (by decide)⟩

/-- Claim C10: the numeric path of `toDate` performs no range check and never
fails: for every number `n` — negative, out of range, or fractional — it
returns `new Date(n * 86,400,000)`; only the string path can fail, through
`decode`. -/
theorem c10_todate_no_check :
    (∀ q : ℚ, toDate (Sum.inr q) = .ok (jsNewDate (q * 86400000)))
    ∧ (∀ s : String,
        toDate (Sum.inl s) = (decode s).map fun days => jsNewDate ((days : ℚ) * 86400000))
    ∧ toDate (Sum.inr (-5 : ℚ)) = .ok ⟨-432000000⟩
    ∧ toDate (Sum.inr (100000000 : ℚ)) = .ok ⟨8640000000000000⟩
    ∧ toDate (Sum.inr (1 / 2 : ℚ)) = .ok ⟨43200000⟩ := by
  refine ⟨fun q => rfl, fun s => rfl, ?_, ?_, ?_⟩
  · show Except.ok (jsNewDate ((-5 : ℚ) * 86400000)) = .ok ⟨-432000000⟩
    rw [show ((-5 : ℚ) * 86400000) = (((-432000000 : Int)) : ℚ) by norm_num]
    unfold jsNewDate
    rw [ratTrunc_intCast]
  · show Except.ok (jsNewDate ((100000000 : ℚ) * 86400000)) = .ok ⟨8640000000000000⟩
    rw [show ((100000000 : ℚ) * 86400000) = (((8640000000000000 : Int)) : ℚ) by norm_num]
    unfold jsNewDate
    rw [ratTrunc_intCast]
  · show Except.ok (jsNewDate ((1 / 2 : ℚ) * 86400000)) = .ok ⟨43200000⟩
    rw [show ((1 / 2 : ℚ) * 86400000) = (((43200000 : Int)) : ℚ) by norm_num]
    unfold jsNewDate
    rw [ratTrunc_intCast]

/-- Claim C9: the ISO representation round-trips: for every calendar-valid
ISO string whose day count lies in [1296, 46655], constructing a CivilDate
from it and calling `toISOString` returns the original string — the UTC
fields of the UTC-midnight moment are re-interpreted as local fields, so no
timezone shift occurs. -/
theorem c9_iso_roundtrip :
    ∀ (s : String) (y m d : Int), isoShape s.data = some (y, m, d) → isRealDate y m d →
      1296 ≤ makeDay y (m - 1) d → makeDay y (m - 1) d ≤ 46655 →
      civilFromString s = .ok ⟨((makeDay y (m - 1) d : Int) : ℚ)⟩
      ∧ civilToISOString ⟨((makeDay y (m - 1) d : Int) : ℚ)⟩ = s := by
  intro s y m d hsh hreal hlo hhi
  obtain ⟨hy73, hy97⟩ := year_range_of_count hreal hlo hhi
  refine ⟨civilFromString_valid hsh (by omega) hreal, ?_⟩
  obtain ⟨hm1, hm2, hd1, hd2⟩ := hreal
  have hfields : civilFromDays (makeDay y (m - 1) d) = (y, m, d) :=
    civil_makeDay y m d hm1 hm2 hd1 hd2
  have hadj : adjustYear y = y := adjustYear_high (by omega)
  simp only [civilToISOString, civilToDate_int (makeDay y (m - 1) d), getUTCymd,
    dayOfTv_exact, hfields]
  simp only [hadj, hfields]
  exact render_iso hsh (by omega)

theorem c9_iso_roundtrip_witness :
    isoShape "2024-02-29".data = some (2024, 2, 29)
    ∧ isRealDate 2024 2 29
    ∧ (1296 ≤ makeDay 2024 (2 - 1) 29 ∧ makeDay 2024 (2 - 1) 29 ≤ 46655)
    ∧ (civilFromString "2024-02-29" = .ok ⟨((makeDay 2024 (2 - 1) 29 : Int) : ℚ)⟩
       ∧ civilToISOString ⟨((makeDay 2024 (2 - 1) 29 : Int) : ℚ)⟩ = "2024-02-29") :=
  ⟨by decide, by decide, ⟨by decide, by decide⟩,
   c9_iso_roundtrip "2024-02-29" 2024 2 29 (by decide) (by decide) (by decide) (by decide)⟩
